import Mathlib

/-!
Shallow embedding of the Zura single-pass compiler (src/src/parser/parser.cpp)
together with the parts of its collaborator interfaces (lexer/parser helper,
spec sections 4 and 6) that the source file uses but that are not under src/.
Global mutable state of the C++ program (the Parser record, the chain of
Compiler records, the loop-tracking scalars and the heap object list) is made
explicit as a state record `St` that every embedded function threads through.
Machine integers are modelled as Nat/Int with explicit truncation where the
source truncates.
-/

set_option linter.unusedVariables false
set_option maxRecDepth 8192

namespace Zura

/-- Token kinds of the lexer (collaborator interface, spec section 6). -/
inductive TokenKind where
  | IDENTIFIER | NUMBER | STRING
  | PLUS | MINUS | STAR | SLASH | MODULO | POWER
  | BANG | BANG_EQUAL | EQUAL | EQUAL_EQUAL
  | GREATER | GREATER_EQUAL | LESS | LESS_EQUAL
  | LEFT_PAREN | RIGHT_PAREN | LEFT_BRACE | RIGHT_BRACE
  | SEMICOLON | COMMA | WALRUS
  | AND | OR | TRUE | FALSE | NIL
  | HAVE | FUNC | IF | ELSE | WHILE | FOR | RETURN
  | BREAK | CONTINUE | INFO | USING | EOF_TOKEN
  deriving DecidableEq, Repr

/-- Token: kind plus lexeme (the C++ start/length pair is modelled by the
lexeme string it designates) and source line. -/
structure Token where
  kind : TokenKind
  name : String
  line : Nat
  deriving DecidableEq, Repr

/-- Runtime values that can appear in a constant pool. Strings are modelled
by their content (spec section 3: strings compare by content). A function
constant holds an index into the process-wide object list (the C++ heap
pointer made explicit). Number constants keep the raw lexeme: no claim
depends on floating-point evaluation. -/
inductive Value where
  | nil
  | vbool (b : Bool)
  | vnum (s : String)
  | vstr (s : String)
  | vfun (idx : Nat)
  deriving DecidableEq, Repr

/-- Chunk: bytecode bytes, constant pool, parallel line table. -/
structure Chunk where
  code : List Nat
  constants : List Value
  lines : List Nat
  deriving DecidableEq, Repr

def emptyChunk : Chunk := ⟨[], [], []⟩

/-- ObjFunction: arity, owned chunk, optional name. -/
structure ObjFunction where
  arity : Nat
  chunk : Chunk
  fname : Option String
  deriving DecidableEq, Repr

instance : Inhabited ObjFunction := ⟨⟨0, emptyChunk, none⟩⟩

/-- Local: name token and block depth, depth -1 is the uninitialized sentinel. -/
structure Local where
  name : Token
  depth : Int
  deriving DecidableEq, Repr

inductive FunctionType where
  | TYPE_FUNCTION | TYPE_SCRIPT
  deriving DecidableEq, Repr

/-- One Compiler record: the C++ struct Compiler, with the enclosing pointer
made explicit by position in the list `St.comps` (head = current). -/
structure Frame where
  ftype : FunctionType
  arity : Nat
  fname : Option String
  chunk : Chunk
  locals : List Local
  scope_depth : Int
  deriving DecidableEq, Repr

def eofTok : Token := ⟨.EOF_TOKEN, "", 0⟩

def default_local : Local := ⟨eofTok, 0⟩

instance : Inhabited Frame := ⟨⟨.TYPE_SCRIPT, 0, none, emptyChunk, [], 0⟩⟩

instance : Inhabited Local := ⟨default_local⟩

/-- Parser record (spec section 3): token cursor plus error state. The
`errors` list records the reported messages, in order. -/
structure ParserSt where
  tokens : List Token
  previous : Token
  current : Token
  had_error : Bool
  panic_mode : Bool
  errors : List String
  deriving DecidableEq, Repr

/-- The whole mutable state of the C++ compilation: parser, chain of
Compiler records (head is `current`), heap object list, and the two
loop-tracking scalars. -/
structure St where
  p : ParserSt
  comps : List Frame
  objs : List ObjFunction
  inner_most_loop_start : Int
  inner_most_loop_scope_depth : Int
  deriving DecidableEq, Repr

def UINT8_MAX : Nat := 255
def UINT8_COUNT : Nat := 256
def UINT16_MAX : Nat := 65535

def OP_CONSTANT : Nat := 0
def OP_NIL : Nat := 1
def OP_TRUE : Nat := 2
def OP_FALSE : Nat := 3
def OP_POP : Nat := 4
def OP_GET_LOCAL : Nat := 5
def OP_SET_LOCAL : Nat := 6
def OP_GET_GLOBAL : Nat := 7
def OP_DEFINE_GLOBAL : Nat := 8
def OP_SET_GLOBAL : Nat := 9
def OP_EQUAL : Nat := 10
def OP_GREATER : Nat := 11
def OP_LESS : Nat := 12
def OP_ADD : Nat := 13
def OP_SUBTRACT : Nat := 14
def OP_MULTIPLY : Nat := 15
def OP_DIVIDE : Nat := 16
def OP_MODULO : Nat := 17
def OP_POWER : Nat := 18
def OP_NOT : Nat := 19
def OP_NEGATE : Nat := 20
def OP_INFO : Nat := 21
def OP_JUMP : Nat := 22
def OP_JUMP_IF_FALSE : Nat := 23
def OP_LOOP : Nat := 24
def OP_CALL : Nat := 25
def OP_RETURN : Nat := 26
def OP_BREAK : Nat := 27
def OP_IMPORT : Nat := 28

def PREC_NONE : Nat := 0
def PREC_ASSIGNMENT : Nat := 1
def PREC_OR : Nat := 2
def PREC_AND : Nat := 3
def PREC_EQUALITY : Nat := 4
def PREC_COMPARISON : Nat := 5
def PREC_TERM : Nat := 6
def PREC_FACTOR : Nat := 7
def PREC_POWER : Nat := 8
def PREC_UNARY : Nat := 9
def PREC_CALL : Nat := 10
def PREC_PRIMARY : Nat := 11

/-- Modelled from the spec: parser.advance of the collaborator interface
(spec section 6). Shifts the cursor; at end of input the EOF token is
sticky. -/
def St.padvance (st : St) : St :=
  match st.p.tokens with
  | [] => { st with p := { st.p with previous := st.p.current } }
  | t :: ts =>
      { st with p := { st.p with previous := st.p.current, current := t, tokens := ts } }

/-- Modelled from the spec: parser.error of the collaborator interface
(parser_helper.h is not under src). A compile error is recorded against the
parser state and enters panic mode; while in panic mode further reports are
suppressed (spec sections 4.5 and 7). -/
def St.perror (st : St) (msg : String) : St :=
  if st.p.panic_mode then st
  else
    { st with
      p := { st.p with had_error := true, panic_mode := true,
                       errors := st.p.errors ++ [msg] } }

/-- Modelled from the spec: parser.error_at_current; same error recording,
only the blamed token differs, which the state does not track. -/
def St.perror_at_current (st : St) (msg : String) : St := st.perror msg

/-- Modelled from the spec: parser.check. -/
def St.pcheck (st : St) (k : TokenKind) : Bool := st.p.current.kind = k

/-- Modelled from the spec: parser.match; consumes the token when it
matches. -/
def St.pmatch (st : St) (k : TokenKind) : Bool × St :=
  if st.p.current.kind = k then (true, st.padvance) else (false, st)

/-- Modelled from the spec: parser.consume(kind, message). -/
def St.pconsume (st : St) (k : TokenKind) (msg : String) : St :=
  if st.p.current.kind = k then st.padvance else st.perror msg

/-- Current Compiler (the C++ global `current`). -/
def St.cur (st : St) : Frame := st.comps.headD default

/-- Replace the current Compiler. -/
def St.set_cur (st : St) (fr : Frame) : St :=
  match st.comps with
  | [] => st
  | _ :: rest => { st with comps := fr :: rest }

/-- compiling_chunk(): the chunk of the current Compiler. -/
def compiling_chunk (st : St) : Chunk := st.cur.chunk

def St.set_chunk (st : St) (c : Chunk) : St := st.set_cur { st.cur with chunk := c }

/-- write_chunk from the chunk module: appends one byte and its line. -/
def write_chunk (c : Chunk) (byte : Nat) (line : Nat) : Chunk :=
  { c with code := c.code ++ [byte], lines := c.lines ++ [line] }

/-- add_constant: appends to the constant pool, returns the new index. -/
def add_constant (c : Chunk) (v : Value) : Nat × Chunk :=
  (c.constants.length, { c with constants := c.constants ++ [v] })

def emit_byte (st : St) (byte : Nat) : St :=
  st.set_chunk (write_chunk (compiling_chunk st) byte st.p.previous.line)

def emit_bytes (st : St) (byte1 byte2 : Nat) : St :=
  emit_byte (emit_byte st byte1) byte2

def emit_loop (st : St) (loop_start : Int) : St :=
  let st := emit_byte st OP_LOOP
  let offset : Int := ((compiling_chunk st).code.length : Int) - loop_start + 2
  let st := if offset > (UINT16_MAX : Int) then st.perror "Loop body too large." else st
  let st := emit_byte st ((offset.toNat >>> 8) % 256)
  emit_byte st (offset.toNat % 256)

def emit_jump (st : St) (instruction : Nat) : Nat × St :=
  let st := emit_byte st instruction
  let st := emit_byte st 0xff
  let st := emit_byte st 0xff
  ((compiling_chunk st).code.length - 2, st)

def make_constant (st : St) (value : Value) : Nat × St :=
  let (constant, c) := add_constant (compiling_chunk st) value
  let st := st.set_chunk c
  if constant > UINT8_MAX then (0, st.perror "Too many constants in one chunk.")
  else (constant % 256, st)

def emit_return (st : St) : St := emit_byte (emit_byte st OP_NIL) OP_RETURN

def emit_constant (st : St) (v : Value) : St :=
  let (k, st) := make_constant st v
  emit_bytes st OP_CONSTANT k

/-- Overwrite one code byte of the current chunk. -/
def St.set_code (st : St) (i : Nat) (b : Nat) : St :=
  st.set_chunk { compiling_chunk st with code := (compiling_chunk st).code.set i b }

/-- patch_jump: the -2 adjusts for the two placeholder bytes themselves.
The source writes the truncated bytes even when it has reported the
distance error. -/
def patch_jump (st : St) (offset : Nat) : St :=
  let jump : Nat := (compiling_chunk st).code.length - offset - 2
  let st := if jump > UINT16_MAX then st.perror "Too much code to jump over." else st
  let st := st.set_code offset ((jump >>> 8) % 256)
  st.set_code (offset + 1) (jump % 256)

def init_compiler (st : St) (ftype : FunctionType) : St :=
  let fname := if ftype ≠ FunctionType.TYPE_SCRIPT then some st.p.previous.name else none
  let fr : Frame :=
    { ftype := ftype, arity := 0, fname := fname, chunk := emptyChunk,
      locals := [{ name := ⟨.EOF_TOKEN, "", 0⟩, depth := 0 }], scope_depth := 0 }
  { st with comps := fr :: st.comps }

def end_compiler (st : St) : ObjFunction × St :=
  let st := emit_return st
  match st.comps with
  | [] => (default, st)
  | fr :: rest => (⟨fr.arity, fr.chunk, fr.fname⟩, { st with comps := rest })

def begin_scope (st : St) : St :=
  st.set_cur { st.cur with scope_depth := st.cur.scope_depth + 1 }

/-- While loop of end_scope, on the reversed locals list (head = most
recently declared): pop one byte per local deeper than the new depth. -/
def end_scope_pop (sd : Int) (line : Nat) : List Local → Chunk → List Local × Chunk
  | [], c => ([], c)
  | l :: rest, c =>
      if l.depth > sd then end_scope_pop sd line rest (write_chunk c OP_POP line)
      else (l :: rest, c)

def end_scope (st : St) : St :=
  let sd := st.cur.scope_depth - 1
  let (rl, c) := end_scope_pop sd st.p.previous.line st.cur.locals.reverse st.cur.chunk
  st.set_cur { st.cur with scope_depth := sd, locals := rl.reverse, chunk := c }

def identifier_constant (st : St) (name : Token) : Nat × St :=
  make_constant st (Value.vstr name.name)

def identifiers_equal (a b : Token) : Bool :=
  (a.name.length = b.name.length) && (a.name = b.name)

/-- Downward index loop of resolve_local: the Nat argument is the number of
slots still to scan (the C++ loop index i plus one). Returns the resolved
slot (or -1) and whether the self-initializer error was reported; as in the
source, the depth -1 test is only reached for slots whose name did NOT
match. -/
def resolve_go (name : Token) (locals : List Local) : Nat → Int × Bool
  | 0 => (-1, false)
  | i + 1 =>
      let l := locals.getD i default_local
      if identifiers_equal name l.name then ((i : Int), false)
      else
        let r := resolve_go name locals i
        (r.1, (decide (l.depth = -1)) || r.2)

def resolve_local (compiler : Frame) (name : Token) : Int × Bool :=
  resolve_go name compiler.locals compiler.locals.length

def add_local (st : St) (name : Token) : St :=
  if st.cur.locals.length = UINT8_COUNT then
    st.perror "Too many local variables in function."
  else
    st.set_cur { st.cur with locals := st.cur.locals ++ [{ name := name, depth := -1 }] }

/-- Downward scan of declare_variable, on the reversed locals list: break at
the first initialized local of an enclosing scope, report when the name is
already taken in the current one. -/
def declare_go (name : Token) (sd : Int) : List Local → Bool
  | [] => false
  | l :: rest =>
      if l.depth ≠ -1 ∧ l.depth < sd then false
      else (identifiers_equal name l.name) || declare_go name sd rest

def declare_variable (st : St) : St :=
  if st.cur.scope_depth = 0 then st
  else
    let name := st.p.previous
    let err := declare_go name st.cur.scope_depth st.cur.locals.reverse
    let st := if err then st.perror "Already a variable with this name in this scope." else st
    add_local st name

def parser_variable (st : St) (error_msg : String) : Nat × St :=
  let st := st.pconsume .IDENTIFIER error_msg
  let st := declare_variable st
  if st.cur.scope_depth > 0 then (0, st)
  else identifier_constant st st.p.previous

def mark_initialized (st : St) : St :=
  if st.cur.scope_depth = 0 then st
  else
    let ls := st.cur.locals
    let last := ls.getD (ls.length - 1) default_local
    st.set_cur { st.cur with
      locals := ls.set (ls.length - 1) { last with depth := st.cur.scope_depth } }

def define_variable (st : St) (global : Nat) : St :=
  if st.cur.scope_depth > 0 then mark_initialized st
  else emit_bytes st OP_DEFINE_GLOBAL global

/-- Pop loop shared by continue_statement and break_statement, counted on
the reversed locals list; the local table itself is not modified. -/
def loop_pops (sd : Int) : List Local → Nat
  | [] => 0
  | l :: rest => if l.depth > sd then loop_pops sd rest + 1 else 0

def emit_pops (st : St) : Nat → St
  | 0 => st
  | n + 1 => emit_pops (emit_byte st OP_POP) n

def continue_statement (st : St) : St :=
  if st.inner_most_loop_start = -1 then
    st.perror "Cannot use \x27continue\x27 outside of a loop."
  else
    let st := emit_pops st (loop_pops st.inner_most_loop_scope_depth st.cur.locals.reverse)
    let st := emit_loop st st.inner_most_loop_start
    st.pconsume .SEMICOLON "Expect \x27;\x27 after \x27continue\x27."

def break_statement (st : St) : St :=
  if st.inner_most_loop_start = -1 then
    st.perror "Cannot use \x27break\x27 outside of a loop."
  else
    let st := emit_pops st (loop_pops st.inner_most_loop_scope_depth st.cur.locals.reverse)
    let st := emit_byte st OP_BREAK
    st.pconsume .SEMICOLON "Expect \x27;\x27 after \x27break\x27."

def using_statement (st : St) : St :=
  let st := st.pconsume .STRING "Expect string after \x27using\x27."
  let moduleName := (st.p.previous.name.drop 1).dropRight 1
  let st := st.pconsume .SEMICOLON "Expect \x27;\x27 after value."
  let st := emit_constant st (Value.vstr moduleName)
  emit_byte st OP_IMPORT

/-- Prefix parse actions, defunctionalized (the C++ table stores function
pointers). -/
inductive PreOp where
  | pGrouping | pVariable | pNumber | pString | pLiteral | pUnary
  deriving DecidableEq, Repr

/-- Infix parse actions, defunctionalized. -/
inductive InOp where
  | iBinary | iAnd | iOr | iCall
  deriving DecidableEq, Repr

/-- One row of the Pratt table: prefix action, infix action, precedence. -/
structure ParseRule where
  pre : Option PreOp
  mid : Option InOp
  prec : Nat
  deriving DecidableEq, Repr

/-- Modelled from the spec: the precedence table (rules, in the parser
helper header not under src), following spec section 4.4: NONE < ASSIGNMENT
< OR < AND < EQUALITY < COMPARISON < TERM < FACTOR < POWER < UNARY < CALL <
PRIMARY, with grouping/call on parentheses, variable/number/string/literal
prefixes, and an equals sign that has no rule of its own. -/
def get_rule (kind : TokenKind) : ParseRule :=
  match kind with
  | .LEFT_PAREN => ⟨some .pGrouping, some .iCall, PREC_CALL⟩
  | .MINUS => ⟨some .pUnary, some .iBinary, PREC_TERM⟩
  | .PLUS => ⟨none, some .iBinary, PREC_TERM⟩
  | .SLASH => ⟨none, some .iBinary, PREC_FACTOR⟩
  | .STAR => ⟨none, some .iBinary, PREC_FACTOR⟩
  | .MODULO => ⟨none, some .iBinary, PREC_FACTOR⟩
  | .POWER => ⟨none, some .iBinary, PREC_POWER⟩
  | .BANG => ⟨some .pUnary, none, PREC_NONE⟩
  | .BANG_EQUAL => ⟨none, some .iBinary, PREC_EQUALITY⟩
  | .EQUAL_EQUAL => ⟨none, some .iBinary, PREC_EQUALITY⟩
  | .GREATER => ⟨none, some .iBinary, PREC_COMPARISON⟩
  | .GREATER_EQUAL => ⟨none, some .iBinary, PREC_COMPARISON⟩
  | .LESS => ⟨none, some .iBinary, PREC_COMPARISON⟩
  | .LESS_EQUAL => ⟨none, some .iBinary, PREC_COMPARISON⟩
  | .IDENTIFIER => ⟨some .pVariable, none, PREC_NONE⟩
  | .STRING => ⟨some .pString, none, PREC_NONE⟩
  | .NUMBER => ⟨some .pNumber, none, PREC_NONE⟩
  | .AND => ⟨none, some .iAnd, PREC_AND⟩
  | .OR => ⟨none, some .iOr, PREC_OR⟩
  | .TRUE => ⟨some .pLiteral, none, PREC_NONE⟩
  | .FALSE => ⟨some .pLiteral, none, PREC_NONE⟩
  | .NIL => ⟨some .pLiteral, none, PREC_NONE⟩
  | _ => ⟨none, none, PREC_NONE⟩

def literal (can_assign : Bool) (st : St) : St :=
  match st.p.previous.kind with
  | .FALSE => emit_byte st OP_FALSE
  | .TRUE => emit_byte st OP_TRUE
  | .NIL => emit_byte st OP_NIL
  | _ => st

def number_fn (can_assign : Bool) (st : St) : St :=
  emit_constant st (Value.vnum st.p.previous.name)

def string_fn (can_assign : Bool) (st : St) : St :=
  emit_constant st (Value.vstr ((st.p.previous.name.drop 1).dropRight 1))

/-- Modelled from the spec: the synchronization token set (return_context in
the parser helper, not under src): tokens that begin a new declaration or
statement (spec section 4.5). -/
def return_context : List TokenKind :=
  [.FUNC, .HAVE, .IF, .WHILE, .FOR, .INFO, .RETURN, .USING]

def fuel_out (st : St) : St :=
  { st with p := { st.p with had_error := true,
                             errors := st.p.errors ++ ["INTERNAL FUEL EXHAUSTED"] } }

def sync_loop : Nat → St → St
  | 0, st => fuel_out st
  | fuel + 1, st =>
      if st.p.current.kind = .EOF_TOKEN then st
      else if st.p.previous.kind = .SEMICOLON then st
      else if st.p.current.kind ∈ return_context then st
      else sync_loop fuel st.padvance

def synchronize (fuel : Nat) (st : St) : St :=
  sync_loop fuel { st with p := { st.p with panic_mode := false } }

mutual

def parse_precedence : Nat → Nat → St → St
  | 0, _, st => fuel_out st
  | fuel + 1, prec, st =>
      let st := st.padvance
      match (get_rule st.p.previous.kind).pre with
      | none => st.perror "Expect expression."
      | some pre_rule =>
          let can_assign : Bool := prec ≤ PREC_ASSIGNMENT
          let st := run_pre fuel pre_rule can_assign st
          let st := infix_loop fuel prec can_assign st
          if can_assign then
            let (m, st) := st.pmatch .EQUAL
            if m then st.perror "Invalid assignment target." else st
          else st

def infix_loop : Nat → Nat → Bool → St → St
  | 0, _, _, st => fuel_out st
  | fuel + 1, prec, can_assign, st =>
      if prec ≤ (get_rule st.p.current.kind).prec then
        let st := st.padvance
        let st :=
          match (get_rule st.p.previous.kind).mid with
          | none => st
          | some in_rule => run_in fuel in_rule can_assign st
        infix_loop fuel prec can_assign st
      else st

def run_pre : Nat → PreOp → Bool → St → St
  | 0, _, _, st => fuel_out st
  | fuel + 1, op, can_assign, st =>
      match op with
      | .pGrouping => grouping fuel can_assign st
      | .pVariable => variable_fn fuel can_assign st
      | .pNumber => number_fn can_assign st
      | .pString => string_fn can_assign st
      | .pLiteral => literal can_assign st
      | .pUnary => unary fuel can_assign st

def run_in : Nat → InOp → Bool → St → St
  | 0, _, _, st => fuel_out st
  | fuel + 1, op, can_assign, st =>
      match op with
      | .iBinary => binary fuel can_assign st
      | .iAnd => and_ fuel can_assign st
      | .iOr => or_ fuel can_assign st
      | .iCall => call fuel can_assign st

def grouping : Nat → Bool → St → St
  | 0, _, st => fuel_out st
  | fuel + 1, can_assign, st =>
      let st := expression fuel st
      st.pconsume .RIGHT_PAREN "Expect \x27)\x27 after expression."

def unary : Nat → Bool → St → St
  | 0, _, st => fuel_out st
  | fuel + 1, can_assign, st =>
      let operator_type := st.p.previous.kind
      let st := parse_precedence fuel PREC_UNARY st
      match operator_type with
      | .BANG => emit_byte st OP_NOT
      | .MINUS => emit_byte st OP_NEGATE
      | _ => st

def binary : Nat → Bool → St → St
  | 0, _, st => fuel_out st
  | fuel + 1, can_assign, st =>
      let operator_type := st.p.previous.kind
      let rule := get_rule operator_type
      let st := parse_precedence fuel (rule.prec + 1) st
      match operator_type with
      | .PLUS => emit_byte st OP_ADD
      | .MINUS => emit_byte st OP_SUBTRACT
      | .STAR => emit_byte st OP_MULTIPLY
      | .SLASH => emit_byte st OP_DIVIDE
      | .MODULO => emit_byte st OP_MODULO
      | .POWER => emit_byte st OP_POWER
      | .BANG_EQUAL => emit_bytes st OP_EQUAL OP_NOT
      | .EQUAL_EQUAL => emit_byte st OP_EQUAL
      | .GREATER => emit_byte st OP_GREATER
      | .GREATER_EQUAL => emit_bytes st OP_LESS OP_NOT
      | .LESS => emit_byte st OP_LESS
      | .LESS_EQUAL => emit_bytes st OP_GREATER OP_NOT
      | _ => st

def and_ : Nat → Bool → St → St
  | 0, _, st => fuel_out st
  | fuel + 1, can_assign, st =>
      let (end_jump, st) := emit_jump st OP_JUMP_IF_FALSE
      let st := emit_byte st OP_POP
      let st := parse_precedence fuel PREC_AND st
      patch_jump st end_jump

def or_ : Nat → Bool → St → St
  | 0, _, st => fuel_out st
  | fuel + 1, can_assign, st =>
      let (else_jump, st) := emit_jump st OP_JUMP_IF_FALSE
      let (end_jump, st) := emit_jump st OP_JUMP
      let st := patch_jump st else_jump
      let st := emit_byte st OP_POP
      let st := parse_precedence fuel PREC_OR st
      patch_jump st end_jump

def call : Nat → Bool → St → St
  | 0, _, st => fuel_out st
  | fuel + 1, can_assign, st =>
      let (arg_count, st) := argument_list fuel st
      emit_bytes st OP_CALL (arg_count % 256)

def argument_list : Nat → St → Nat × St
  | 0, st => (0, fuel_out st)
  | fuel + 1, st =>
      if st.pcheck .RIGHT_PAREN then
        (0, st.pconsume .RIGHT_PAREN "Expected a \x27)\x27 after arguments")
      else
        let (arg_count, st) := arg_loop fuel 0 st
        (arg_count, st.pconsume .RIGHT_PAREN "Expected a \x27)\x27 after arguments")

def arg_loop : Nat → Nat → St → Nat × St
  | 0, arg_count, st => (arg_count, fuel_out st)
  | fuel + 1, arg_count, st =>
      let st := expression fuel st
      let st := if arg_count = 255 then st.perror "Can\x27t have more than 255 arguments" else st
      let arg_count := arg_count + 1
      let (m, st) := st.pmatch .COMMA
      if m then arg_loop fuel arg_count st else (arg_count, st)

def named_variable : Nat → Token → Bool → St → St
  | 0, _, _, st => fuel_out st
  | fuel + 1, name, can_assign, st =>
      let r := resolve_local st.cur name
      let st := if r.2 then st.perror "Cannot read local variable in its own initializer." else st
      let (arg, get_op, set_op, st) :=
        if r.1 ≠ -1 then (r.1.toNat, OP_GET_LOCAL, OP_SET_LOCAL, st)
        else
          let (k, st) := identifier_constant st name
          (k, OP_GET_GLOBAL, OP_SET_GLOBAL, st)
      let (m, st) := st.pmatch .EQUAL
      if m && can_assign then
        let st := expression fuel st
        emit_bytes st set_op (arg % 256)
      else emit_bytes st get_op (arg % 256)

def variable_fn : Nat → Bool → St → St
  | 0, _, st => fuel_out st
  | fuel + 1, can_assign, st => named_variable fuel st.p.previous can_assign st

def expression : Nat → St → St
  | 0, st => fuel_out st
  | fuel + 1, st => parse_precedence fuel PREC_ASSIGNMENT st

def block : Nat → St → St
  | 0, st => fuel_out st
  | fuel + 1, st =>
      if ¬ (st.pcheck .RIGHT_BRACE) ∧ ¬ (st.pcheck .EOF_TOKEN) then
        block fuel (declaration fuel st)
      else st.pconsume .RIGHT_BRACE "Expect \x27\x7d\x27 after block."

def param_loop : Nat → St → St
  | 0, st => fuel_out st
  | fuel + 1, st =>
      let st := st.set_cur { st.cur with arity := st.cur.arity + 1 }
      let st := if st.cur.arity > 255 then
                  st.perror_at_current "Can\x27t have more than 255 parameters!"
                else st
      let (constant, st) := parser_variable st "Expected paramerter name!"
      let st := define_variable st constant
      let (m, st) := st.pmatch .COMMA
      if m then param_loop fuel st else st

def function : Nat → FunctionType → St → St
  | 0, _, st => fuel_out st
  | fuel + 1, ftype, st =>
      let st := init_compiler st ftype
      let st := begin_scope st
      let st := st.pconsume .LEFT_PAREN "Expected a \x27(\x27 after a function name!"
      let st := if ¬ (st.pcheck .RIGHT_PAREN) then param_loop fuel st else st
      let st := st.pconsume .RIGHT_PAREN "Expected a \x27)\x27 after parameters!"
      let st := st.pconsume .LEFT_BRACE "Expected a \x27\x7b\x27 after a function body!"
      let st := block fuel st
      let (fn, st) := end_compiler st
      let idx := st.objs.length
      let st := { st with objs := st.objs ++ [fn] }
      let (k, st) := make_constant st (Value.vfun idx)
      emit_bytes st OP_CONSTANT k

def func_declaration : Nat → St → St
  | 0, st => fuel_out st
  | fuel + 1, st =>
      let (global, st) := parser_variable st "Expected a function name!"
      let st := mark_initialized st
      let st := function fuel FunctionType.TYPE_FUNCTION st
      define_variable st global

def var_declaration : Nat → St → St
  | 0, st => fuel_out st
  | fuel + 1, st =>
      let (global, st) := parser_variable st "Expect variable name."
      let (m, st) := st.pmatch .WALRUS
      let st := if m then expression fuel st else emit_byte st OP_NIL
      let st := st.pconsume .SEMICOLON "Expect \x27;\x27 after variable declaration."
      define_variable st global

def expression_statement : Nat → St → St
  | 0, st => fuel_out st
  | fuel + 1, st =>
      let st := expression fuel st
      let st := st.pconsume .SEMICOLON "Expect \x27;\x27 after expression."
      emit_byte st OP_POP

def for_statement : Nat → St → St
  | 0, st => fuel_out st
  | fuel + 1, st =>
      let st := begin_scope st
      let st := st.pconsume .LEFT_PAREN "Expect \x27(\x27 after \x27for\x27."
      let (mi, st) := st.pmatch .SEMICOLON
      let st :=
        if mi then st
        else
          let (mh, st) := st.pmatch .HAVE
          if mh then var_declaration fuel st else expression_statement fuel st
      let surrounding_loop_start := st.inner_most_loop_start
      let surrounding_loop_scope := st.inner_most_loop_scope_depth
      let st := { st with
        inner_most_loop_start := ((compiling_chunk st).code.length : Int),
        inner_most_loop_scope_depth := st.cur.scope_depth }
      let (mc, st) := st.pmatch .SEMICOLON
      let (exit_jump, st) :=
        if mc then ((-1 : Int), st)
        else
          let st := expression fuel st
          let st := st.pconsume .SEMICOLON "Expect \x27;\x27 after loop condition."
          let (ej, st) := emit_jump st OP_JUMP_IF_FALSE
          ((ej : Int), emit_byte st OP_POP)
      let (mr, st) := st.pmatch .RIGHT_PAREN
      let st :=
        if mr then st
        else
          let (body_jump, st) := emit_jump st OP_JUMP
          let increment_start : Int := ((compiling_chunk st).code.length : Int)
          let st := expression fuel st
          let st := emit_byte st OP_POP
          let st := st.pconsume .RIGHT_PAREN "Expect \x27)\x27 after for clauses."
          let st := emit_loop st st.inner_most_loop_start
          let st := { st with inner_most_loop_start := increment_start }
          patch_jump st body_jump
      let st := statement fuel st
      let st := emit_loop st st.inner_most_loop_start
      let st :=
        if exit_jump ≠ -1 then emit_byte (patch_jump st exit_jump.toNat) OP_POP
        else st
      let st := { st with
        inner_most_loop_start := surrounding_loop_start,
        inner_most_loop_scope_depth := surrounding_loop_scope }
      end_scope st

def if_statement : Nat → St → St
  | 0, st => fuel_out st
  | fuel + 1, st =>
      let st := st.pconsume .LEFT_PAREN "Expect \x27(\x27 after \x27if\x27."
      let st := expression fuel st
      let st := st.pconsume .RIGHT_PAREN "Expect \x27)\x27 after condition."
      let (then_jump, st) := emit_jump st OP_JUMP_IF_FALSE
      let st := emit_byte st OP_POP
      let st := statement fuel st
      let (else_jump, st) := emit_jump st OP_JUMP
      let st := patch_jump st then_jump
      let st := emit_byte st OP_POP
      let (m, st) := st.pmatch .ELSE
      let st := if m then statement fuel st else st
      patch_jump st else_jump

def info_statement : Nat → St → St
  | 0, st => fuel_out st
  | fuel + 1, st =>
      let st := expression fuel st
      let st := st.pconsume .SEMICOLON "Expect \x27;\x27 after value."
      emit_byte st OP_INFO

def return_statement : Nat → St → St
  | 0, st => fuel_out st
  | fuel + 1, st =>
      let st := if st.cur.ftype = FunctionType.TYPE_SCRIPT then
                  st.perror "Can\x27t return from top-level code!"
                else st
      let (m, st) := st.pmatch .SEMICOLON
      if m then emit_return st
      else
        let st := expression fuel st
        let st := st.pconsume .SEMICOLON "Expected \x27;\x27 after the return value"
        emit_byte st OP_RETURN

def while_statement : Nat → St → St
  | 0, st => fuel_out st
  | fuel + 1, st =>
      let loop_start : Int := ((compiling_chunk st).code.length : Int)
      let st := st.pconsume .LEFT_PAREN "Expect \x27(\x27 after \x27while\x27."
      let st := expression fuel st
      let st := st.pconsume .RIGHT_PAREN "Expect \x27)\x27 after condition."
      let (exit_jump, st) := emit_jump st OP_JUMP_IF_FALSE
      let st := emit_byte st OP_POP
      let st := statement fuel st
      let st := emit_loop st loop_start
      let st := patch_jump st exit_jump
      emit_byte st OP_POP

def declaration : Nat → St → St
  | 0, st => fuel_out st
  | fuel + 1, st =>
      if st.p.panic_mode then synchronize fuel st
      else
        let (mf, st) := st.pmatch .FUNC
        if mf then func_declaration fuel st
        else
          let (mh, st) := st.pmatch .HAVE
          if mh then var_declaration fuel st
          else statement fuel st

def statement : Nat → St → St
  | 0, st => fuel_out st
  | fuel + 1, st =>
      let (m, st) := st.pmatch .INFO
      if m then info_statement fuel st
      else
        let (m, st) := st.pmatch .RETURN
        if m then return_statement fuel st
        else
          let (m, st) := st.pmatch .IF
          if m then if_statement fuel st
          else
            let (m, st) := st.pmatch .CONTINUE
            if m then continue_statement st
            else
              let (m, st) := st.pmatch .BREAK
              if m then break_statement st
              else
                let (m, st) := st.pmatch .WHILE
                if m then while_statement fuel st
                else
                  let (m, st) := st.pmatch .FOR
                  if m then for_statement fuel st
                  else
                    let (m, st) := st.pmatch .USING
                    if m then using_statement st
                    else
                      let (m, st) := st.pmatch .LEFT_BRACE
                      if m then end_scope (block fuel (begin_scope st))
                      else expression_statement fuel st

end

def compile_loop : Nat → St → St
  | 0, st => fuel_out st
  | fuel + 1, st =>
      let (m, st) := st.pmatch .EOF_TOKEN
      if m then st else compile_loop fuel (declaration fuel st)

/-- Compile entry point: the token list stands for the source text handed to
init_tokenizer. Returns the produced top-level function (or none when an
error was recorded) together with the final global state. -/
def compile (fuel : Nat) (tokens : List Token) : Option ObjFunction × St :=
  let st : St :=
    { p := { tokens := tokens, previous := eofTok, current := eofTok,
             had_error := false, panic_mode := false, errors := [] },
      comps := [], objs := [],
      inner_most_loop_start := -1, inner_most_loop_scope_depth := -1 }
  let st := init_compiler st FunctionType.TYPE_SCRIPT
  let st := st.padvance
  let st := compile_loop fuel st
  let r := end_compiler st
  (if r.2.p.had_error then none else some r.1, r.2)

/-- Shorthand for building concrete tokens in the evaluation theorems. -/
def tok (k : TokenKind) (s : String) : Token := ⟨k, s, 0⟩

/-- Token stream of the block-scoped self-initializing declaration
`{ have x := x; }` (the declaration initializer operator of this language is
the walrus token, parser.cpp line 280). -/
def c1toks : List Token :=
  [tok .LEFT_BRACE "", tok .HAVE "", tok .IDENTIFIER "x", tok .WALRUS "",
   tok .IDENTIFIER "x", tok .SEMICOLON "", tok .RIGHT_BRACE "", tok .EOF_TOKEN ""]

/-- Token stream of the same declaration at global scope: `have x := x;`. -/
def c1gtoks : List Token :=
  [tok .HAVE "", tok .IDENTIFIER "x", tok .WALRUS "",
   tok .IDENTIFIER "x", tok .SEMICOLON "", tok .EOF_TOKEN ""]

/-- Token stream of `{ have y := g; }`: a local declaration whose initializer
reads a different, global name. -/
def c2toks : List Token :=
  [tok .LEFT_BRACE "", tok .HAVE "", tok .IDENTIFIER "y", tok .WALRUS "",
   tok .IDENTIFIER "g", tok .SEMICOLON "", tok .RIGHT_BRACE "", tok .EOF_TOKEN ""]

/-- A compiler frame as it stands while the initializer of local `y` is being
compiled at depth 1: slot 0 plus the uninitialized `y`. -/
def c2Fr : Frame :=
  { ftype := .TYPE_SCRIPT, arity := 0, fname := none, chunk := emptyChunk,
    locals := [{ name := ⟨.EOF_TOKEN, "", 0⟩, depth := 0 },
               { name := ⟨.IDENTIFIER, "y", 0⟩, depth := -1 }],
    scope_depth := 1 }

/-- A frame holding two initialized locals that both spell `x`, the inner one
deeper: used to check that resolution favors the innermost binding. -/
def shadowFr : Frame :=
  { ftype := .TYPE_SCRIPT, arity := 0, fname := none, chunk := emptyChunk,
    locals := [{ name := ⟨.EOF_TOKEN, "", 0⟩, depth := 0 },
               { name := ⟨.IDENTIFIER, "x", 0⟩, depth := 1 },
               { name := ⟨.IDENTIFIER, "x", 0⟩, depth := 2 }],
    scope_depth := 2 }

/-- State for running named_variable directly on the reference `g` while the
uninitialized local `y` is on the table (current token is the semicolon that
follows the reference). -/
def c2nvSt : St :=
  { p := { tokens := [], previous := ⟨.IDENTIFIER, "g", 0⟩,
           current := tok .SEMICOLON "",
           had_error := false, panic_mode := false, errors := [] },
    comps := [c2Fr], objs := [],
    inner_most_loop_start := -1, inner_most_loop_scope_depth := -1 }

/-- Token stream of the statement `a + b = c;` where the equals sign has no
legal assignment target. -/
def c3toks : List Token :=
  [tok .IDENTIFIER "a", tok .PLUS "", tok .IDENTIFIER "b", tok .EQUAL "",
   tok .IDENTIFIER "c", tok .SEMICOLON "", tok .EOF_TOKEN ""]

/-- Token stream of the statement `(a) = c;`: here the equals sign is left
unconsumed by the subexpression, so the post-loop check does fire. -/
def c3gtoks : List Token :=
  [tok .LEFT_PAREN "", tok .IDENTIFIER "a", tok .RIGHT_PAREN "", tok .EQUAL "",
   tok .IDENTIFIER "c", tok .SEMICOLON "", tok .EOF_TOKEN ""]

/-- State with a five-byte chunk for exercising emit_jump and patch_jump. -/
def c4St : St :=
  { p := { tokens := [], previous := eofTok, current := eofTok,
           had_error := false, panic_mode := false, errors := [] },
    comps := [{ ftype := .TYPE_SCRIPT, arity := 0, fname := none,
                chunk := { code := [9, 9, 9, 9, 9], constants := [], lines := [0, 0, 0, 0, 0] },
                locals := [], scope_depth := 0 }],
    objs := [], inner_most_loop_start := -1, inner_most_loop_scope_depth := -1 }

/-- Token stream of `for (;; i) continue;`: a for statement with no
initializer, no condition, increment expression `i`, and a body that is a
single continue statement. -/
def c7toks : List Token :=
  [tok .FOR "", tok .LEFT_PAREN "", tok .SEMICOLON "", tok .SEMICOLON "",
   tok .IDENTIFIER "i", tok .RIGHT_PAREN "", tok .CONTINUE "", tok .SEMICOLON "",
   tok .EOF_TOKEN ""]

/-- Token stream of `func f() { return; }`: a function whose body ends in an
explicit return. -/
def c8toks : List Token :=
  [tok .FUNC "", tok .IDENTIFIER "f", tok .LEFT_PAREN "", tok .RIGHT_PAREN "",
   tok .LEFT_BRACE "", tok .RETURN "", tok .SEMICOLON "", tok .RIGHT_BRACE "",
   tok .EOF_TOKEN ""]

/-- Frame whose local table is full (256 slots). -/
def fr256 : Frame :=
  { ftype := .TYPE_SCRIPT, arity := 0, fname := none, chunk := emptyChunk,
    locals := List.replicate 256 default_local, scope_depth := 1 }

/-- State whose current compiler has a full local table. -/
def st256 : St :=
  { p := { tokens := [], previous := eofTok, current := eofTok,
           had_error := false, panic_mode := false, errors := [] },
    comps := [fr256], objs := [],
    inner_most_loop_start := -1, inner_most_loop_scope_depth := -1 }

/-- Frame for one open scope at depth 1 holding slot 0 and one depth-1
local named `a`. -/
def frC5 : Frame :=
  { ftype := .TYPE_SCRIPT, arity := 0, fname := none, chunk := emptyChunk,
    locals := [{ name := ⟨.EOF_TOKEN, "", 0⟩, depth := 0 },
               { name := ⟨.IDENTIFIER, "a", 0⟩, depth := 1 }],
    scope_depth := 1 }

/-- State about to leave that scope. -/
def stC5 : St :=
  { p := { tokens := [], previous := eofTok, current := eofTok,
           had_error := false, panic_mode := false, errors := [] },
    comps := [frC5], objs := [],
    inner_most_loop_start := -1, inner_most_loop_scope_depth := -1 }

/-- State about to declare a second local named `x` at depth 1 while one
`x` already lives in the same scope (previous token is the new `x`). -/
def stC6 : St :=
  { p := { tokens := [], previous := ⟨.IDENTIFIER, "x", 0⟩, current := eofTok,
           had_error := false, panic_mode := false, errors := [] },
    comps := [{ ftype := .TYPE_SCRIPT, arity := 0, fname := none, chunk := emptyChunk,
                locals := [{ name := ⟨.EOF_TOKEN, "", 0⟩, depth := 0 },
                           { name := ⟨.IDENTIFIER, "x", 0⟩, depth := 1 }],
                scope_depth := 1 }],
    objs := [], inner_most_loop_start := -1, inner_most_loop_scope_depth := -1 }

/-- State inside a recorded loop (start offset 0, scope depth 0) with one
loop-local on the table and a semicolon as the current token. -/
def stC7 : St :=
  { p := { tokens := [], previous := eofTok, current := tok .SEMICOLON "",
           had_error := false, panic_mode := false, errors := [] },
    comps := [frC5], objs := [],
    inner_most_loop_start := 0, inner_most_loop_scope_depth := 0 }

/-- State whose current token is the function name `r`, inside a scope at
depth 1: the situation of func_declaration for a local function. -/
def stC8 : St :=
  { p := { tokens := [tok .LEFT_PAREN ""], previous := eofTok,
           current := ⟨.IDENTIFIER, "r", 0⟩,
           had_error := false, panic_mode := false, errors := [] },
    comps := [{ ftype := .TYPE_SCRIPT, arity := 0, fname := none, chunk := emptyChunk,
                locals := [{ name := ⟨.EOF_TOKEN, "", 0⟩, depth := 0 }],
                scope_depth := 1 }],
    objs := [], inner_most_loop_start := -1, inner_most_loop_scope_depth := -1 }

/-- Claim C1 (code_bug evidence). The claim says a local declaration whose
initializer reads the variable being declared must fail with the error
"Cannot read local variable in its own initializer." and that the same
statement at global scope compiles. On the code, the block-scoped
declaration compiles WITHOUT any error: resolve_local finds the freshly
reserved uninitialized slot by name and returns it before ever looking at
its depth -1 sentinel (the depth test of parser.cpp line 123 is only
reached for slots whose name does not match), so the initializer reads the
own slot (OP_GET_LOCAL 1). The global-scope variant compiles as well. -/
theorem c1_self_initializer_not_rejected :
    (compile 32 c1toks).2.p.had_error = false
    ∧ (compile 32 c1toks).2.p.errors = []
    ∧ ((compile 32 c1toks).1.getD default).chunk.code
        = [OP_GET_LOCAL, 1, OP_POP, OP_NIL, OP_RETURN]
    ∧ (compile 32 c1gtoks).2.p.had_error = false
    ∧ (compile 32 c1gtoks).2.p.errors = [] := by
  refine ⟨?_, ?_, ?_, ?_, ?_⟩ <;> decide

/-- Claim C2 (code_bug evidence). The claim says an identifier that matches
no local is compiled as a global access without raising any compile error.
The scan direction and innermost-match parts hold (the shadowed frame
resolves to slot 2, the innermost), but whenever the downward scan passes a
non-matching local whose depth is the -1 sentinel, the code reports
"Cannot read local variable in its own initializer." even though the
reference is then compiled as a global access: named_variable on `g` with
the uninitialized local `y` on the table emits OP_GET_GLOBAL 0 yet records
the error, and the whole program `{ have y := g; }` fails to compile. -/
theorem c2_global_fallback_raises_error :
    resolve_local shadowFr (tok .IDENTIFIER "x") = (2, false)
    ∧ resolve_local c2Fr (tok .IDENTIFIER "g") = (-1, true)
    ∧ (compiling_chunk (named_variable 8 (tok .IDENTIFIER "g") true c2nvSt)).code
        = [OP_GET_GLOBAL, 0]
    ∧ (named_variable 8 (tok .IDENTIFIER "g") true c2nvSt).p.errors
        = ["Cannot read local variable in its own initializer."]
    ∧ (compile 32 c2toks).2.p.errors
        = ["Cannot read local variable in its own initializer."]
    ∧ (compile 32 c2toks).1 = none := by
  refine ⟨?_, ?_, ?_, ?_, ?_, ?_⟩ <;> decide

/-- Claim C3 (code_bug evidence). The claim says every expression with an
equals sign in a non-assignable position fails with the invalid-assignment-
target compile error. On the code, `a + b = c;` fails with a different
error: named_variable runs parser.match(EQUAL) BEFORE testing can_assign
(parser.cpp line 481), so the equals sign is consumed inside the
subexpression `b` and the post-loop check of parse_precedence never sees
it; the only reported error is the missing semicolon. The check itself is
reachable: `(a) = c;`, whose subexpression leaves the equals sign
unconsumed, does report "Invalid assignment target.". -/
theorem c3_invalid_assignment_wrong_error :
    (compile 32 c3toks).2.p.errors = ["Expect \x27;\x27 after expression."]
    ∧ (compile 32 c3toks).2.p.had_error = true
    ∧ ¬ ("Invalid assignment target." ∈ (compile 32 c3toks).2.p.errors)
    ∧ (compile 32 c3gtoks).2.p.errors = ["Invalid assignment target."] := by
  refine ⟨?_, ?_, ?_, ?_⟩ <;> decide

/-- Claim C9. The compile entry point produces a function object exactly
when no compile error was recorded during the pass; when one was recorded
the failure indication (none) is returned instead. -/
theorem c9_compile_result_iff_no_error (fuel : Nat) (tokens : List Token) :
    ((compile fuel tokens).1).isSome = !(compile fuel tokens).2.p.had_error := by
  simp only [compile]
  split <;> simp_all

theorem getD_set_self (l : List Nat) (i a d : Nat) (h : i < l.length) :
    (l.set i a).getD i d = a := by
  simp [List.getD, List.getElem?_set, h]

theorem getD_set_ne (l : List Nat) {i j : Nat} (a d : Nat) (h : i ≠ j) :
    (l.set i a).getD j d = l.getD j d := by
  simp [List.getD, List.getElem?_set, h]

/-- Claim C4. emit_jump returns the offset of the first placeholder byte
after appending the opcode and the two 0xff placeholder bytes; patch_jump
computes the distance chunk-count minus offset minus 2, reports the
"Too much code to jump over." error exactly when it exceeds 65535, and
writes it big-endian into the two placeholder bytes so that the decoded
operand equals target minus (patched offset plus 2). On compile error the
entry point discards the output (see c9_compile_result_iff_no_error), so no
corrupted bytecode is produced. -/
theorem c4_emit_patch_jump (st : St) (fr : Frame) (rest : List Frame) (op o : Nat)
    (hc : st.comps = fr :: rest) (ho : o + 2 ≤ fr.chunk.code.length) :
    (emit_jump st op).1 = fr.chunk.code.length + 1
    ∧ (compiling_chunk (emit_jump st op).2).code = fr.chunk.code ++ [op, 0xff, 0xff]
    ∧ (st.p.panic_mode = false →
        (patch_jump st o).p.had_error
          = (st.p.had_error || decide (UINT16_MAX < fr.chunk.code.length - o - 2)))
    ∧ (fr.chunk.code.length - o - 2 ≤ UINT16_MAX →
        256 * ((compiling_chunk (patch_jump st o)).code.getD o 0)
            + (compiling_chunk (patch_jump st o)).code.getD (o + 1) 0
          = fr.chunk.code.length - o - 2) := by
  obtain ⟨p, comps, objs, ils, ild⟩ := st
  have hc2 : comps = fr :: rest := hc
  subst hc2
  refine ⟨?_, ?_, ?_, ?_⟩
  · simp [emit_jump, emit_byte, write_chunk, compiling_chunk, St.cur, St.set_chunk,
      St.set_cur]
  · simp [emit_jump, emit_byte, write_chunk, compiling_chunk, St.cur, St.set_chunk,
      St.set_cur]
  · intro hp
    have hp2 : p.panic_mode = false := hp
    by_cases hj : UINT16_MAX < fr.chunk.code.length - o - 2
    · simp [patch_jump, compiling_chunk, St.cur, St.set_chunk, St.set_cur, St.set_code,
        St.perror, hp2, hj, gt_iff_lt]
    · simp [patch_jump, compiling_chunk, St.cur, St.set_chunk, St.set_cur, St.set_code,
        St.perror, hp2, hj, gt_iff_lt]
  · intro hj
    have hjlt : fr.chunk.code.length - o - 2 ≤ UINT16_MAX := hj
    have hnot : ¬ (UINT16_MAX < fr.chunk.code.length - o - 2) := by omega
    have holt : o < fr.chunk.code.length := by omega
    have holt1 : o + 1 < fr.chunk.code.length := by omega
    have hcode : (compiling_chunk (patch_jump
        { p := p, comps := fr :: rest, objs := objs, inner_most_loop_start := ils,
          inner_most_loop_scope_depth := ild } o)).code
        = (fr.chunk.code.set o (((fr.chunk.code.length - o - 2) >>> 8) % 256)).set (o + 1)
            ((fr.chunk.code.length - o - 2) % 256) := by
      simp [patch_jump, compiling_chunk, St.cur, St.set_chunk, St.set_cur, St.set_code,
        hnot, gt_iff_lt]
    rw [hcode]
    rw [getD_set_self _ _ _ _ (by simpa using holt1)]
    rw [getD_set_ne _ _ _ (by omega)]
    rw [getD_set_self _ _ _ _ holt]
    have h8 : (fr.chunk.code.length - o - 2) >>> 8 = (fr.chunk.code.length - o - 2) / 256 := by
      rw [Nat.shiftRight_eq_div_pow]
    rw [h8]
    have hlt : (fr.chunk.code.length - o - 2) / 256 < 256 := by
      have : fr.chunk.code.length - o - 2 < 256 * 256 := by
        simp only [UINT16_MAX] at hjlt
        omega
      omega
    rw [Nat.mod_eq_of_lt hlt]
    have hmod : fr.chunk.code.length - o - 2
        = 256 * ((fr.chunk.code.length - o - 2) / 256) + (fr.chunk.code.length - o - 2) % 256 :=
      (Nat.div_add_mod _ 256).symm
    omega

/-- Claim C4 witness: a five-byte chunk, patched at offset 1, distance 2. -/
theorem c4_witness :
    c4St.comps
        = [{ ftype := .TYPE_SCRIPT, arity := 0, fname := none,
             chunk := { code := [9, 9, 9, 9, 9], constants := [], lines := [0, 0, 0, 0, 0] },
             locals := [], scope_depth := 0 }]
    ∧ ((emit_jump c4St OP_JUMP).1 = 6
        ∧ (compiling_chunk (emit_jump c4St OP_JUMP).2).code = [9, 9, 9, 9, 9] ++ [OP_JUMP, 0xff, 0xff]
        ∧ (c4St.p.panic_mode = false →
            (patch_jump c4St 1).p.had_error
              = (c4St.p.had_error || decide (UINT16_MAX < [9, 9, 9, 9, 9].length - 1 - 2)))
        ∧ ([9, 9, 9, 9, 9].length - 1 - 2 ≤ UINT16_MAX →
            256 * ((compiling_chunk (patch_jump c4St 1)).code.getD 1 0)
                + (compiling_chunk (patch_jump c4St 1)).code.getD (1 + 1) 0
              = [9, 9, 9, 9, 9].length - 1 - 2)) := by
  refine ⟨by decide, ?_⟩
  have h := c4_emit_patch_jump c4St
    { ftype := .TYPE_SCRIPT, arity := 0, fname := none,
      chunk := { code := [9, 9, 9, 9, 9], constants := [], lines := [0, 0, 0, 0, 0] },
      locals := [], scope_depth := 0 } [] OP_JUMP 1 (by decide) (by decide)
  exact h

theorem resolve_go_ne_zero (name : Token) (locals : List Local)
    (h0 : (locals.getD 0 default_local).name.name = "")
    (hn : name.name.length ≠ 0) :
    ∀ k, (resolve_go name locals k).1 ≠ 0 := by
  intro k
  induction k with
  | zero => simp [resolve_go]
  | succ k ih =>
      simp only [resolve_go]
      split
      · next h =>
          cases k with
          | zero =>
              exfalso
              simp only [identifiers_equal, Bool.and_eq_true, decide_eq_true_eq] at h
              rw [h0] at h
              exact hn (by simp [h.2])
          | succ j =>
              intro hq
              omega
      · simpa using ih

/-- Claim C10. Every Compiler reserves slot 0 at initialization with an
empty name and depth 0 (so at most 255 user locals fit before add_local
reports "Too many local variables in function.": the 256-entry table
already errors and stays unchanged, a shorter one appends the new
uninitialized local); and resolve_local never resolves a nonempty-named
identifier to slot 0, since slot 0 can only be matched by an empty name. -/
theorem c10_compiler_invariants (st : St) (ft : FunctionType) :
    ((init_compiler st ft).comps.headD default).locals
        = [{ name := ⟨.EOF_TOKEN, "", 0⟩, depth := 0 }]
    ∧ ((init_compiler st ft).comps.headD default).scope_depth = 0
    ∧ (init_compiler st ft).comps.tail = st.comps
    ∧ (∀ (st2 : St) (fr : Frame) (rest : List Frame) (name : Token),
        st2.comps = fr :: rest → fr.locals.length = UINT8_COUNT →
        st2.p.panic_mode = false →
        (add_local st2 name).p.had_error = true
        ∧ (add_local st2 name).p.errors
            = st2.p.errors ++ ["Too many local variables in function."]
        ∧ (add_local st2 name).cur.locals = fr.locals)
    ∧ (∀ (st2 : St) (fr : Frame) (rest : List Frame) (name : Token),
        st2.comps = fr :: rest → fr.locals.length < UINT8_COUNT →
        (add_local st2 name).p = st2.p
        ∧ (add_local st2 name).cur.locals = fr.locals ++ [{ name := name, depth := -1 }])
    ∧ (∀ (fr : Frame) (name : Token),
        (fr.locals.getD 0 default_local).name.name = "" → name.name.length ≠ 0 →
        (resolve_local fr name).1 ≠ 0) := by
  refine ⟨?_, ?_, ?_, ?_, ?_, ?_⟩
  · simp [init_compiler]
  · simp [init_compiler]
  · simp [init_compiler]
  · intro st2 fr rest name hc hl hp
    obtain ⟨p, comps, objs, ils, ild⟩ := st2
    have hc2 : comps = fr :: rest := hc
    subst hc2
    have hp2 : p.panic_mode = false := hp
    refine ⟨?_, ?_, ?_⟩ <;>
      simp [add_local, St.cur, St.perror, St.set_cur, hl, hp2]
  · intro st2 fr rest name hc hl
    obtain ⟨p, comps, objs, ils, ild⟩ := st2
    have hc2 : comps = fr :: rest := hc
    subst hc2
    have hne : fr.locals.length ≠ UINT8_COUNT := Nat.ne_of_lt hl
    refine ⟨?_, ?_⟩ <;> simp [add_local, St.cur, St.set_cur, hne]
  · intro fr name h0 hn
    simpa [resolve_local] using resolve_go_ne_zero name fr.locals h0 hn fr.locals.length

/-- Claim C10 witness: slot 0 after initialization, the full and non-full
local tables, and a lookup that cannot land on slot 0. -/
theorem c10_witness :
    ((init_compiler c4St .TYPE_SCRIPT).comps.headD default).locals
        = [{ name := ⟨.EOF_TOKEN, "", 0⟩, depth := 0 }]
    ∧ ((init_compiler c4St .TYPE_SCRIPT).comps.headD default).scope_depth = 0
    ∧ (init_compiler c4St .TYPE_SCRIPT).comps.tail = c4St.comps
    ∧ ((add_local st256 (tok .IDENTIFIER "z")).p.had_error = true
        ∧ (add_local st256 (tok .IDENTIFIER "z")).p.errors
            = st256.p.errors ++ ["Too many local variables in function."]
        ∧ (add_local st256 (tok .IDENTIFIER "z")).cur.locals = fr256.locals)
    ∧ ((add_local stC5 (tok .IDENTIFIER "z")).p = stC5.p
        ∧ (add_local stC5 (tok .IDENTIFIER "z")).cur.locals
            = frC5.locals ++ [{ name := tok .IDENTIFIER "z", depth := -1 }])
    ∧ (resolve_local c2Fr (tok .IDENTIFIER "y")).1 ≠ 0 := by
  obtain ⟨h1, h2, h3, h4, h5, h6⟩ := c10_compiler_invariants c4St .TYPE_SCRIPT
  exact ⟨h1, h2, h3,
    h4 st256 fr256 [] (tok .IDENTIFIER "z") rfl (by simp [fr256, UINT8_COUNT]) rfl,
    h5 stC5 frC5 [] (tok .IDENTIFIER "z") rfl (by decide),
    h6 c2Fr (tok .IDENTIFIER "y") (by decide) (by decide)⟩

theorem declare_go_append (name : Token) (sd : Int) (rb tl : List Local)
    (hrb : ∀ l ∈ rb, ¬(l.depth ≠ -1 ∧ l.depth < sd)) :
    declare_go name sd (rb ++ tl)
      = (rb.any (fun l => identifiers_equal name l.name) || declare_go name sd tl) := by
  induction rb with
  | nil => simp
  | cons l rb ih =>
      have hl := hrb l (by simp)
      simp only [List.cons_append, declare_go]
      rw [if_neg hl, show List.append rb tl = rb ++ tl from rfl,
        ih (fun x hx => hrb x (by simp [hx]))]
      simp [Bool.or_assoc]

theorem declare_go_stop (name : Token) (sd : Int) (la : Local) (t : List Local)
    (hla : la.depth ≠ -1 ∧ la.depth < sd) :
    declare_go name sd (la :: t) = false := by
  simp only [declare_go]
  rw [if_pos hla]

/-- Claim C6. declare_variable does nothing at global scope; at depth
greater than 0 it scans the locals from the most recent backward, stops at
the scope boundary (the nearest initialized local of an enclosing scope,
whose entries form the prefix A), and reports
"Already a variable with this name in this scope." exactly when one of the
current-scope entries (the suffix B) carries the same name; either way the
new local is then reserved, so shadowing in a deeper scope compiles while
redeclaration in the same scope errors. -/
theorem c6_declare_variable (st : St) (fr : Frame) (rest : List Frame)
    (A B : List Local)
    (hc : st.comps = fr :: rest)
    (hl : fr.locals = A ++ B)
    (hB : ∀ l ∈ B, ¬(l.depth ≠ -1 ∧ l.depth < fr.scope_depth))
    (hA : A = [] ∨ ∃ la, A.getLast? = some la ∧ la.depth ≠ -1 ∧ la.depth < fr.scope_depth)
    (hsd : fr.scope_depth ≠ 0)
    (hp : st.p.panic_mode = false)
    (hlen : fr.locals.length < UINT8_COUNT) :
    (∀ st2 : St, st2.cur.scope_depth = 0 → declare_variable st2 = st2)
    ∧ (declare_variable st).p.had_error
        = (st.p.had_error || B.any (fun l => identifiers_equal st.p.previous l.name))
    ∧ (declare_variable st).cur.locals
        = fr.locals ++ [{ name := st.p.previous, depth := -1 }] := by
  obtain ⟨p, comps, objs, ils, ild⟩ := st
  have hc2 : comps = fr :: rest := hc
  subst hc2
  have hp2 : p.panic_mode = false := hp
  have herr : declare_go p.previous fr.scope_depth fr.locals.reverse
      = B.any (fun l => identifiers_equal p.previous l.name) := by
    rw [hl, List.reverse_append]
    rw [declare_go_append _ _ _ _ (by intro l hm; exact hB l (List.mem_reverse.mp hm))]
    have htl : declare_go p.previous fr.scope_depth A.reverse = false := by
      rcases hA with hAnil | ⟨la, hlast, hcond⟩
      · subst hAnil; simp [declare_go]
      · have : A.reverse.head? = some la := by
          rw [List.head?_reverse]
          exact hlast
        cases hAr : A.reverse with
        | nil => rw [hAr] at this; simp at this
        | cons x t =>
            rw [hAr] at this
            simp at this
            subst this
            exact declare_go_stop _ _ _ _ hcond
    rw [htl]
    simp
  have hne : fr.locals.length ≠ UINT8_COUNT := Nat.ne_of_lt hlen
  refine ⟨?_, ?_, ?_⟩
  · intro st2 h
    simp [declare_variable, h]
  · by_cases hb : B.any (fun l => identifiers_equal p.previous l.name)
    · simp [declare_variable, St.cur, St.set_cur, St.perror, add_local, hsd, hp2,
        herr, hb, hne]
    · simp [declare_variable, St.cur, St.set_cur, St.perror, add_local, hsd, hp2,
        herr, hb, hne]
  · by_cases hb : B.any (fun l => identifiers_equal p.previous l.name)
    · simp [declare_variable, St.cur, St.set_cur, St.perror, add_local, hsd, hp2,
        herr, hb, hne]
    · simp [declare_variable, St.cur, St.set_cur, St.perror, add_local, hsd, hp2,
        herr, hb, hne]

/-- Claim C6 witness: redeclaring `x` in the scope that already holds an
`x` reports the error and still reserves the slot. -/
theorem c6_witness :
    (∀ st2 : St, st2.cur.scope_depth = 0 → declare_variable st2 = st2)
    ∧ (declare_variable stC6).p.had_error
        = (stC6.p.had_error
            || [({ name := ⟨.IDENTIFIER, "x", 0⟩, depth := 1 } : Local)].any
                 (fun l => identifiers_equal stC6.p.previous l.name))
    ∧ (declare_variable stC6).cur.locals
        = [{ name := ⟨.EOF_TOKEN, "", 0⟩, depth := 0 },
           { name := ⟨.IDENTIFIER, "x", 0⟩, depth := 1 }]
          ++ [{ name := stC6.p.previous, depth := -1 }] := by
  exact c6_declare_variable stC6
    { ftype := .TYPE_SCRIPT, arity := 0, fname := none, chunk := emptyChunk,
      locals := [{ name := ⟨.EOF_TOKEN, "", 0⟩, depth := 0 },
                 { name := ⟨.IDENTIFIER, "x", 0⟩, depth := 1 }],
      scope_depth := 1 } []
    [{ name := ⟨.EOF_TOKEN, "", 0⟩, depth := 0 }]
    [{ name := ⟨.IDENTIFIER, "x", 0⟩, depth := 1 }]
    rfl rfl (by decide) (Or.inr ⟨{ name := ⟨.EOF_TOKEN, "", 0⟩, depth := 0 }, rfl, by decide⟩)
    (by decide) rfl (by decide)

theorem end_scope_pop_run (sd : Int) (line : Nat) (rb tl : List Local) (c : Chunk)
    (hrb : ∀ l ∈ rb, sd < l.depth) :
    end_scope_pop sd line (rb ++ tl) c
      = end_scope_pop sd line tl
          { c with code := c.code ++ List.replicate rb.length OP_POP,
                   lines := c.lines ++ List.replicate rb.length line } := by
  induction rb generalizing c with
  | nil => simp
  | cons l rb ih =>
      have hl : sd < l.depth := hrb l (by simp)
      simp only [List.cons_append, end_scope_pop]
      rw [if_pos hl, show List.append rb tl = rb ++ tl from rfl,
        ih _ (fun x hx => hrb x (by simp [hx]))]
      congr 1
      simp [write_chunk, List.replicate_succ]

/-- Claim C5. Exiting a scope decrements the depth, then pops exactly one
OP_POP per local whose recorded depth exceeds the new depth (the suffix B
of the table) and truncates the table by that same count, leaving the
enclosing-scope prefix A; that count equals the number of table entries
deeper than the new depth. -/
theorem c5_end_scope (st : St) (fr : Frame) (rest : List Frame) (A B : List Local)
    (hc : st.comps = fr :: rest) (hl : fr.locals = A ++ B)
    (hA : ∀ l ∈ A, l.depth ≤ fr.scope_depth - 1)
    (hB : ∀ l ∈ B, fr.scope_depth - 1 < l.depth) :
    (end_scope st).cur.locals = A
    ∧ (end_scope st).cur.scope_depth = fr.scope_depth - 1
    ∧ (compiling_chunk (end_scope st)).code
        = fr.chunk.code ++ List.replicate B.length OP_POP
    ∧ B.length = (fr.locals.filter (fun l => decide (fr.scope_depth - 1 < l.depth))).length := by
  obtain ⟨p, comps, objs, ils, ild⟩ := st
  have hc2 : comps = fr :: rest := hc
  subst hc2
  have hpop : end_scope_pop (fr.scope_depth - 1) p.previous.line fr.locals.reverse fr.chunk
      = (A.reverse,
         { fr.chunk with code := fr.chunk.code ++ List.replicate B.length OP_POP,
                         lines := fr.chunk.lines ++ List.replicate B.length p.previous.line }) := by
    rw [hl, List.reverse_append]
    rw [end_scope_pop_run _ _ _ _ _ (by intro l hm; exact hB l (List.mem_reverse.mp hm))]
    cases hAr : A.reverse with
    | nil => simp [end_scope_pop]
    | cons la t =>
        have hla : la ∈ A := by
          rw [← List.mem_reverse, hAr]; simp
        have hno : ¬ ((fr.scope_depth - 1) < la.depth) := not_lt.mpr (hA la hla)
        simp only [end_scope_pop]
        rw [if_neg hno]
        simp
  refine ⟨?_, ?_, ?_, ?_⟩
  · simp [end_scope, St.cur, St.set_cur, hpop]
  · simp [end_scope, St.cur, St.set_cur, hpop]
  · simp [end_scope, St.cur, St.set_cur, compiling_chunk, hpop]
  · rw [hl, List.filter_append]
    have h1 : A.filter (fun l => decide (fr.scope_depth - 1 < l.depth)) = [] := by
      simp only [List.filter_eq_nil_iff, decide_eq_true_eq]
      intro l hm
      exact not_lt.mpr (hA l hm)
    have h2 : B.filter (fun l => decide (fr.scope_depth - 1 < l.depth)) = B := by
      rw [List.filter_eq_self]
      intro l hm
      simpa using hB l hm
    simp [h1, h2]

/-- Claim C5 witness: leaving a depth-1 scope with one depth-1 local pops
it and keeps slot 0. -/
theorem c5_witness :
    (end_scope stC5).cur.locals = [{ name := ⟨.EOF_TOKEN, "", 0⟩, depth := 0 }]
    ∧ (end_scope stC5).cur.scope_depth = 0
    ∧ (compiling_chunk (end_scope stC5)).code = [] ++ List.replicate 1 OP_POP
    ∧ (1 : Nat)
        = (frC5.locals.filter (fun l => decide (frC5.scope_depth - 1 < l.depth))).length := by
  have h := c5_end_scope stC5 frC5 []
    [{ name := ⟨.EOF_TOKEN, "", 0⟩, depth := 0 }]
    [{ name := ⟨.IDENTIFIER, "a", 0⟩, depth := 1 }]
    rfl rfl (by decide) (by decide)
  simpa using h

theorem loop_pops_run (sd : Int) (rb tl : List Local) (hrb : ∀ l ∈ rb, sd < l.depth) :
    loop_pops sd (rb ++ tl) = rb.length + loop_pops sd tl := by
  induction rb with
  | nil => simp
  | cons l rb ih =>
      simp only [List.cons_append, loop_pops]
      rw [if_pos (hrb l (by simp)), show List.append rb tl = rb ++ tl from rfl,
        ih (fun x hx => hrb x (by simp [hx]))]
      simp [List.length_cons]
      omega

theorem emit_pops_run (n : Nat) :
    ∀ (st : St) (fr : Frame) (rest : List Frame), st.comps = fr :: rest →
    (emit_pops st n).comps
      = { fr with chunk :=
            { fr.chunk with code := fr.chunk.code ++ List.replicate n OP_POP,
                            lines := fr.chunk.lines ++ List.replicate n st.p.previous.line } }
          :: rest
    ∧ (emit_pops st n).p = st.p
    ∧ (emit_pops st n).inner_most_loop_start = st.inner_most_loop_start := by
  induction n with
  | zero =>
      intro st fr rest hc
      obtain ⟨p, comps, objs, ils, ild⟩ := st
      have hc2 : comps = fr :: rest := hc
      subst hc2
      simp [emit_pops]
  | succ n ih =>
      intro st fr rest hc
      obtain ⟨p, comps, objs, ils, ild⟩ := st
      have hc2 : comps = fr :: rest := hc
      subst hc2
      have hstep := ih (emit_byte
        { p := p, comps := fr :: rest, objs := objs, inner_most_loop_start := ils,
          inner_most_loop_scope_depth := ild } OP_POP)
        { fr with chunk := write_chunk fr.chunk OP_POP p.previous.line } rest
        (by simp [emit_byte, compiling_chunk, St.cur, St.set_chunk, St.set_cur])
      simp only [emit_pops]
      refine ⟨?_, ?_, ?_⟩
      · rw [hstep.1]
        simp [emit_byte, compiling_chunk, St.cur, St.set_chunk, St.set_cur, write_chunk,
          List.replicate_succ]
      · rw [hstep.2.1]
        simp [emit_byte, compiling_chunk, St.cur, St.set_chunk, St.set_cur]
      · rw [hstep.2.2]
        simp [emit_byte, compiling_chunk, St.cur, St.set_chunk, St.set_cur]

theorem emit_loop_shape (st : St) (fr : Frame) (rest : List Frame) (ls : Int)
    (hc : st.comps = fr :: rest) :
    ∃ hi lo, (compiling_chunk (emit_loop st ls)).code = fr.chunk.code ++ [OP_LOOP, hi, lo] := by
  obtain ⟨p, comps, objs, ils, ild⟩ := st
  have hc2 : comps = fr :: rest := hc
  subst hc2
  refine ⟨((((fr.chunk.code.length : Int) + 1) - ls + 2).toNat >>> 8) % 256,
    (((fr.chunk.code.length : Int) + 1) - ls + 2).toNat % 256, ?_⟩
  by_cases hov : (UINT16_MAX : Int) < (fr.chunk.code.length : Int) + 1 - ls + 2 <;>
    by_cases hpm : p.panic_mode <;>
      simp [emit_loop, emit_byte, compiling_chunk, St.cur, St.set_chunk, St.set_cur,
        write_chunk, St.perror, hov, hpm, gt_iff_lt]

theorem comps_pconsume (st : St) (k : TokenKind) (m : String) :
    (st.pconsume k m).comps = st.comps := by
  simp only [St.pconsume, St.padvance, St.perror]
  split
  · split <;> rfl
  · split <;> rfl

theorem compiling_chunk_pconsume (st : St) (k : TokenKind) (m : String) :
    compiling_chunk (st.pconsume k m) = compiling_chunk st := by
  simp [compiling_chunk, St.cur, comps_pconsume]

theorem compiling_chunk_emit_byte (st : St) (fr : Frame) (rest : List Frame) (b : Nat)
    (hc : st.comps = fr :: rest) :
    compiling_chunk (emit_byte st b) = write_chunk fr.chunk b st.p.previous.line := by
  obtain ⟨p, comps, objs, ils, ild⟩ := st
  have hc2 : comps = fr :: rest := hc
  subst hc2
  simp [emit_byte, compiling_chunk, St.cur, St.set_chunk, St.set_cur, write_chunk]

/-- Claim C7. break and continue compile without error exactly when an
enclosing loop start is recorded (-1 is the no-loop sentinel): without one
each reports its cannot-use-outside-a-loop error; with one each first emits
one OP_POP per local declared since the loop's recorded scope depth (the
suffix B of the table) and only then its jump: continue an OP_LOOP whose
operand follows, break the OP_BREAK opcode. On the concrete program
`for (;; i) continue;` the OP_LOOP that continue emits sits at offset 9 and
its big-endian operand 9 makes execution resume at offset 12 - 9 = 3, the
start of the increment clause, the re-test point of a for loop with an
increment. -/
theorem c7_break_continue (st : St) (fr : Frame) (rest : List Frame) (A B : List Local)
    (hc : st.comps = fr :: rest)
    (hl : fr.locals = A ++ B)
    (hA : ∀ l ∈ A, l.depth ≤ st.inner_most_loop_scope_depth)
    (hB : ∀ l ∈ B, st.inner_most_loop_scope_depth < l.depth)
    (hloop : st.inner_most_loop_start ≠ -1) :
    (∀ st2 : St, st2.inner_most_loop_start = -1 → st2.p.panic_mode = false →
        (continue_statement st2).p.errors
            = st2.p.errors ++ ["Cannot use \x27continue\x27 outside of a loop."]
        ∧ (break_statement st2).p.errors
            = st2.p.errors ++ ["Cannot use \x27break\x27 outside of a loop."]
        ∧ (continue_statement st2).p.had_error = true
        ∧ (break_statement st2).p.had_error = true)
    ∧ (∃ hi lo, (compiling_chunk (continue_statement st)).code
          = fr.chunk.code ++ List.replicate B.length OP_POP ++ [OP_LOOP, hi, lo])
    ∧ (compiling_chunk (break_statement st)).code
        = fr.chunk.code ++ List.replicate B.length OP_POP ++ [OP_BREAK]
    ∧ ((compile 32 c7toks).2.p.errors = []
        ∧ ((compile 32 c7toks).1.getD default).chunk.code
            = [OP_JUMP, 0, 6, OP_GET_GLOBAL, 0, OP_POP,
               OP_LOOP, 0, 9, OP_LOOP, 0, 9, OP_LOOP, 0, 12, OP_NIL, OP_RETURN]
        ∧ (9 + 3) - (256 * (((compile 32 c7toks).1.getD default).chunk.code.getD 10 0)
              + ((compile 32 c7toks).1.getD default).chunk.code.getD 11 0) = 3) := by
  have hpops : loop_pops st.inner_most_loop_scope_depth st.cur.locals.reverse = B.length := by
    have hcur : st.cur = fr := by simp [St.cur, hc]
    rw [hcur, hl, List.reverse_append]
    rw [loop_pops_run _ _ _ (by intro l hm; exact hB l (List.mem_reverse.mp hm))]
    have htl : loop_pops st.inner_most_loop_scope_depth A.reverse = 0 := by
      cases hAr : A.reverse with
      | nil => simp [loop_pops]
      | cons la t =>
          have hla : la ∈ A := by rw [← List.mem_reverse, hAr]; simp
          have hno : ¬ (st.inner_most_loop_scope_depth < la.depth) := not_lt.mpr (hA la hla)
          simp only [loop_pops]
          rw [if_neg hno]

    rw [htl]
    simp
  obtain ⟨hcomps, hppres, hils⟩ := emit_pops_run
    (loop_pops st.inner_most_loop_scope_depth st.cur.locals.reverse) st fr rest hc
  refine ⟨?_, ?_, ?_, ?_⟩
  · intro st2 h2 hp2
    obtain ⟨⟨tks, prev, curTok, he, pm, errs⟩, comps2, objs2, ils2, ild2⟩ := st2
    have h2b : ils2 = -1 := h2
    have hp2b : pm = false := hp2
    subst h2b
    subst hp2b
    simp [continue_statement, break_statement, St.perror]
  · obtain ⟨hi, lo, hshape⟩ := emit_loop_shape (emit_pops st
      (loop_pops st.inner_most_loop_scope_depth st.cur.locals.reverse))
      { fr with chunk :=
          { fr.chunk with
              code := fr.chunk.code
                ++ List.replicate (loop_pops st.inner_most_loop_scope_depth
                      st.cur.locals.reverse) OP_POP,
              lines := fr.chunk.lines
                ++ List.replicate (loop_pops st.inner_most_loop_scope_depth
                      st.cur.locals.reverse) st.p.previous.line } }
      rest st.inner_most_loop_start hcomps
    refine ⟨hi, lo, ?_⟩
    simp only [continue_statement]
    rw [if_neg hloop]
    rw [compiling_chunk_pconsume]
    rw [hils]
    rw [hshape]
    rw [hpops]
  · simp only [break_statement]
    rw [if_neg hloop]
    rw [compiling_chunk_pconsume]
    rw [compiling_chunk_emit_byte _ _ _ _ hcomps]
    rw [hpops]
    simp [write_chunk]
  · refine ⟨by decide, by decide, by decide⟩

/-- Claim C7 witness: inside a recorded loop both statements pop the one
loop-local before their jump; outside any loop both report their error. -/
theorem c7_witness :
    ((continue_statement c2nvSt).p.errors
        = c2nvSt.p.errors ++ ["Cannot use \x27continue\x27 outside of a loop."]
      ∧ (break_statement c2nvSt).p.errors
          = c2nvSt.p.errors ++ ["Cannot use \x27break\x27 outside of a loop."]
      ∧ (continue_statement c2nvSt).p.had_error = true
      ∧ (break_statement c2nvSt).p.had_error = true)
    ∧ (∃ hi lo, (compiling_chunk (continue_statement stC7)).code
          = frC5.chunk.code ++ List.replicate 1 OP_POP ++ [OP_LOOP, hi, lo])
    ∧ (compiling_chunk (break_statement stC7)).code
        = frC5.chunk.code ++ List.replicate 1 OP_POP ++ [OP_BREAK] := by
  obtain ⟨h1, h2, h3, h4⟩ := c7_break_continue stC7 frC5 []
    [{ name := ⟨.EOF_TOKEN, "", 0⟩, depth := 0 }]
    [{ name := ⟨.IDENTIFIER, "a", 0⟩, depth := 1 }]
    rfl rfl (by decide) (by decide) (by decide)
  exact ⟨h1 c2nvSt rfl rfl, h2, h3⟩

theorem getD_append_length (l : List Local) (a d : Local) :
    (l ++ [a]).getD l.length d = a := by
  simp [List.getD]

theorem set_append_length (l : List Local) (a b : Local) :
    (l ++ [a]).set l.length b = l ++ [b] := by
  simp [List.set_append]

/-- Claim C8, amended. func_declaration declares the function name and
marks it initialized in the enclosing scope BEFORE the body is compiled
(the definitional factorization below), so in the state handed to
`function` the name already resolves, without error, to the slot just
reserved at the current depth; `function` compiles the body in a freshly
pushed Compiler with an empty chunk; and end_compiler finishes every
function by appending the implicit nil return unconditionally (even after
an explicit return, where it is unreachable - see the counterexample
c8_implicit_return_always_appended). -/
theorem c8_func_declaration (st : St) (fr : Frame) (rest : List Frame) (fuel : Nat)
    (hc : st.comps = fr :: rest)
    (hk : st.p.current.kind = .IDENTIFIER)
    (hsd : 0 < fr.scope_depth)
    (hlen : fr.locals.length < UINT8_COUNT)
    (hfresh : declare_go st.p.current fr.scope_depth fr.locals.reverse = false) :
    func_declaration (fuel + 1) st
      = define_variable
          (function fuel FunctionType.TYPE_FUNCTION
            (mark_initialized (parser_variable st "Expected a function name!").2))
          (parser_variable st "Expected a function name!").1
    ∧ (mark_initialized (parser_variable st "Expected a function name!").2).cur.locals
        = fr.locals ++ [{ name := st.p.current, depth := fr.scope_depth }]
    ∧ resolve_local (mark_initialized (parser_variable st "Expected a function name!").2).cur
          st.p.current
        = ((fr.locals.length : Int), false)
    ∧ (∀ (st2 : St) (ft : FunctionType),
        (init_compiler st2 ft).comps.tail = st2.comps
        ∧ ((init_compiler st2 ft).comps.headD default).chunk = emptyChunk)
    ∧ (∀ (st3 : St) (fr3 : Frame) (rest3 : List Frame), st3.comps = fr3 :: rest3 →
        (end_compiler st3).1.chunk.code = fr3.chunk.code ++ [OP_NIL, OP_RETURN]
        ∧ (end_compiler st3).2.comps = rest3) := by
  have hloc : (mark_initialized (parser_variable st "Expected a function name!").2).cur.locals
      = fr.locals ++ [{ name := st.p.current, depth := fr.scope_depth }] := by
    obtain ⟨⟨tks, prev, curTok, he, pm, errs⟩, comps, objs, ils, ild⟩ := st
    have hc2 : comps = fr :: rest := hc
    subst hc2
    have hk2 : curTok.kind = .IDENTIFIER := hk
    have hfresh2 : declare_go curTok fr.scope_depth fr.locals.reverse = false := hfresh
    have hne : fr.scope_depth ≠ 0 := by omega
    have hne2 : fr.locals.length ≠ UINT8_COUNT := Nat.ne_of_lt hlen
    cases tks <;>
      simp [parser_variable, St.pconsume, St.padvance, declare_variable, St.cur,
        St.set_cur, add_local, mark_initialized, hk2, hfresh2, hne, hne2, hsd,
        getD_append_length, set_append_length]
  refine ⟨rfl, hloc, ?_, ?_, ?_⟩
  · simp only [resolve_local]
    rw [hloc]
    simp only [List.length_append, List.length_cons, List.length_nil, Nat.zero_add]
    simp only [resolve_go, getD_append_length]
    simp [identifiers_equal]
  · intro st2 ft
    exact ⟨by simp [init_compiler], by simp [init_compiler]⟩
  · intro st3 fr3 rest3 hc3
    obtain ⟨p3, comps3, objs3, ils3, ild3⟩ := st3
    have hc4 : comps3 = fr3 :: rest3 := hc3
    subst hc4
    constructor
    · simp [end_compiler, emit_return, emit_byte, compiling_chunk, St.cur, St.set_chunk,
        St.set_cur, write_chunk]
    · simp [end_compiler, emit_return, emit_byte, compiling_chunk, St.cur, St.set_chunk,
        St.set_cur, write_chunk]

/-- Claim C8 witness: declaring local function `r` at depth 1. -/
theorem c8_witness :
    func_declaration 8 stC8
      = define_variable
          (function 7 FunctionType.TYPE_FUNCTION
            (mark_initialized (parser_variable stC8 "Expected a function name!").2))
          (parser_variable stC8 "Expected a function name!").1
    ∧ (mark_initialized (parser_variable stC8 "Expected a function name!").2).cur.locals
        = [{ name := ⟨.EOF_TOKEN, "", 0⟩, depth := 0 }]
          ++ [{ name := stC8.p.current, depth := 1 }]
    ∧ resolve_local
          (mark_initialized (parser_variable stC8 "Expected a function name!").2).cur
          stC8.p.current
        = ((1 : Int), false)
    ∧ ((init_compiler c4St .TYPE_FUNCTION).comps.tail = c4St.comps
        ∧ ((init_compiler c4St .TYPE_FUNCTION).comps.headD default).chunk = emptyChunk)
    ∧ ((end_compiler stC5).1.chunk.code = frC5.chunk.code ++ [OP_NIL, OP_RETURN]
        ∧ (end_compiler stC5).2.comps = []) := by
  obtain ⟨h1, h2, h3, h4, h5⟩ := c8_func_declaration stC8
    { ftype := .TYPE_SCRIPT, arity := 0, fname := none, chunk := emptyChunk,
      locals := [{ name := ⟨.EOF_TOKEN, "", 0⟩, depth := 0 }],
      scope_depth := 1 } [] 7 rfl rfl (by decide) (by decide) (by decide)
  exact ⟨h1, h2, h3, h4 c4St .TYPE_FUNCTION, h5 stC5 frC5 [] rfl⟩

/-- Claim C8 counterexample. The claim says the implicit nil return is
inserted "unless an explicit return already terminates control". Compiling
`func f() { return; }`, whose body ends in an explicit return (the first
OP_NIL, OP_RETURN pair), still appends the implicit nil return (the second
pair): end_compiler emits it unconditionally. -/
theorem c8_implicit_return_always_appended :
    ((compile 32 c8toks).2.objs.getD 0 default).chunk.code
      = [OP_NIL, OP_RETURN, OP_NIL, OP_RETURN]
    ∧ (compile 32 c8toks).2.p.errors = [] := by
  refine ⟨?_, ?_⟩ <;> decide

end Zura
